import Mathlib

/-!
Verification development for the MAI-v2 intelligence-engine supervisor
(`host_engine/server.py` and `host_engine/config.py`).

The supervisor (`MLXEngineManager`) is shallowly embedded as a state machine:
the manager's mutable fields become `ManagerState`, the outside world (process
liveness polls, health-probe responses, signal delivery, time) becomes an
`Oracle` consulted through counters held in `World`, and each manager method
becomes a Lean function threading `ManagerState × World` and emitting an
`Event` trace recording the side effects (process spawns, attempt-counter
mutations, backoff sleeps).  The mutually recursive pair
`start`/`_handle_crash` is embedded as the single fueled interpreter `run`.
-/

namespace MAI

/-- Embeds `EngineConfig` from `host_engine/config.py` (the fields the
supervisor reads). -/
structure EngineConfig where
  host : String
  port : Nat
  internal_port : Nat
  default_model : String
  model : String
  model_directory : String
  model_dir : String
  max_tokens : Nat
  deriving Repr, DecidableEq

/-- `EngineConfig.active_model`: prefers `model` over `default_model`,
using Python truthiness (an empty string falls back). -/
def EngineConfig.active_model (c : EngineConfig) : String :=
  if c.model = "" then c.default_model else c.model

/-- `EngineConfig.active_model_directory`: prefers `model_dir` over
`model_directory`, empty string falling back. -/
def EngineConfig.active_model_directory (c : EngineConfig) : String :=
  if c.model_dir = "" then c.model_directory else c.model_dir

/-- The defaults of `EngineConfig` in `config.py`. -/
def defaultConfig : EngineConfig :=
  { host := "0.0.0.0"
    port := 8081
    internal_port := 8082
    default_model := "mlx-community/Qwen2.5-7B-Instruct-4bit"
    model := ""
    model_directory := "/Volumes/the-eagle/maxwell-ext/lmstudio/models/mlx-community"
    model_dir := ""
    max_tokens := 32768 }

/-- Resolution of `model = model or self.config.active_model` in
`MLXEngineManager.start` (line 91): `None` and the empty string are both
falsy in Python and fall back to the configured active model. -/
def resolveModel (cfg : EngineConfig) : Option String → String
  | none => cfg.active_model
  | some s => if s = "" then cfg.active_model else s

/-- Outcome of one `httpx` GET against the engine's readiness endpoint:
a response with a status code, a transport-level error, or a timeout. -/
inductive HealthOutcome where
  | response (status : Nat)
  | transportError
  | timeout
  deriving Repr, DecidableEq

/-- The raw readiness call `self._health_check_client.get(...)` inside
`_is_healthy`: errors and timeouts are raised (modelled as `.error`). -/
def healthGet : HealthOutcome → Except String Nat
  | .response s => .ok s
  | .transportError => .error "transport error"
  | .timeout => .error "timeout"

/-- `MLXEngineManager._is_healthy` (lines 189-195): the status code is
compared against 200, and every exception is folded into `false` by the
bare `except`.  Total with codomain `Bool`: never propagates an exception. -/
def is_healthy (oc : HealthOutcome) : Bool :=
  match healthGet oc with
  | .ok status => status == 200
  | .error _ => false

/-- An HTTP success status code (2xx). -/
def isSuccessStatus (s : Nat) : Prop := 200 ≤ s ∧ s < 300

instance (s : Nat) : Decidable (isSuccessStatus s) := by
  unfold isSuccessStatus; infer_instance

/-- Result of one `Popen.poll()` call: the exit code when the process has
exited, or `running` when `poll()` returns `None`. -/
inductive PollResult where
  | exited (code : Int)
  | running
  deriving Repr, DecidableEq

/-- The environment the supervisor interacts with, as answer streams
indexed by interaction counters: the n-th `poll()`, the n-th health probe,
whether the n-th `killpg` finds the process group (`false` raises
`ProcessLookupError`), and whether the n-th `wait(timeout=10)` expires. -/
structure Oracle where
  poll : Nat → PollResult
  health : Nat → HealthOutcome
  killFinds : Nat → Bool
  waitTimesOut : Nat → Bool

/-- Interaction counters into the `Oracle` streams, a pid supply for
spawned processes, and a clock (seconds) advanced by the sleeps. -/
structure World where
  pollCtr : Nat
  healthCtr : Nat
  killCtr : Nat
  waitCtr : Nat
  nextPid : Nat
  clock : Nat
  deriving Repr, DecidableEq

def advanceClock (secs : Nat) (w : World) : World :=
  { w with clock := w.clock + secs }

def doPoll (o : Oracle) (w : World) : PollResult × World :=
  (o.poll w.pollCtr, { w with pollCtr := w.pollCtr + 1 })

def doHealth (o : Oracle) (w : World) : Bool × World :=
  (is_healthy (o.health w.healthCtr), { w with healthCtr := w.healthCtr + 1 })

def doKill (o : Oracle) (w : World) : Bool × World :=
  (o.killFinds w.killCtr, { w with killCtr := w.killCtr + 1 })

def doWait (o : Oracle) (w : World) : Bool × World :=
  (o.waitTimesOut w.waitCtr, { w with waitCtr := w.waitCtr + 1 })

/-- The mutable fields of `MLXEngineManager` (lines 72-80): the `Popen`
handle (a pid here), `current_model`, `start_time`, `_restart_attempts`
and `_monitoring`.  `_max_restart_attempts` is the constant 3. -/
structure ManagerState where
  process : Option Nat
  current_model : Option String
  start_time : Option Nat
  restart_attempts : Nat
  monitoring : Bool
  deriving Repr, DecidableEq

/-- Observable side effects of the supervisor, recorded where the source
performs them: a `subprocess.Popen` spawn (line 104), the increment of
`_restart_attempts` (line 134), its reset at budget exhaustion (line 138),
its reset on a confirmed healthy start (line 125), the backoff sleep
(line 143), the drain sleep in `swap_model` (line 186), and the
termination signalling in `stop`. -/
inductive Event where
  | spawn (model : String)
  | crashIncrement
  | resetOnExhaust
  | resetOnSuccess
  | backoffSleep (secs : Nat)
  | drainSleep (secs : Nat)
  | termSignal
  deriving Repr, DecidableEq

/-- Result of a supervisor operation: the boolean the method returns, the
manager state and world afterwards, and the event trace. -/
structure StepOut where
  ok : Bool
  state : ManagerState
  world : World
  events : List Event
  deriving Repr, DecidableEq

/-- `backoff = 2 ** self._restart_attempts` (line 141). -/
def backoff (attempts : Nat) : Nat := 2 ^ attempts

/-- Outcome of the bounded startup polling loop. -/
inductive LoopOut where
  | success (s : ManagerState) (w : World) (evs : List Event)
  | exhausted (s : ManagerState) (w : World) (evs : List Event)
  | crashed (s : ManagerState) (w : World) (evs : List Event)
  deriving Repr, DecidableEq

/-- The startup polling loop of `start` (lines 116-127): up to `iters`
iterations, each polling the process (an exit routes to crash handling
after clearing the handle, line 120), then probing health (success resets
`_restart_attempts` to 0, line 125), else sleeping 1 second. -/
def startupLoop (o : Oracle) : Nat → ManagerState → World → LoopOut
  | 0, s, w => .exhausted s w []
  | iters + 1, s, w =>
    let pw := doPoll o w
    match pw.1 with
    | .exited _ => .crashed { s with process := none } pw.2 []
    | .running =>
      let hw := doHealth o pw.2
      if hw.1 then
        .success { s with restart_attempts := 0 } hw.2 [.resetOnSuccess]
      else
        startupLoop o iters s (advanceClock 1 hw.2)

/-- The mutually recursive call structure of the supervisor: `start`
(line 86), the spawn-and-poll tail of `start` after the already-running
check (lines 91-130), and `_handle_crash` (line 132). -/
inductive Call where
  | start (model : Option String)
  | startSpawn (model : Option String)
  | handleCrash
  deriving Repr, DecidableEq

/-- Fueled interpreter for `MLXEngineManager.start` / `_handle_crash`
(lines 86-146).  `start` first returns `true` if a process exists and
polls alive (line 88); otherwise it resolves the model, spawns a process
(setting `current_model` and `start_time`, lines 104-113), and runs the
startup loop; a crash during startup routes into `_handle_crash`
(line 121), and loop exhaustion returns `false` without clearing the
handle (line 130).  `_handle_crash` increments `_restart_attempts`; past
the budget of 3 it resets the counter and returns `false` (lines 136-139);
otherwise it sleeps `2 ^ attempts` seconds, clears the handle and
re-enters `start` with the last-known model (lines 141-146).  `fuel` is
an artifact bounding the (in fact bounded) mutual recursion; it is matched
at the top (0 bails out, leaving everything untouched) and decremented at
every cross-call, so any `fuel ≥ 12` is beyond what an execution can use. -/
def run (cfg : EngineConfig) (o : Oracle) : Nat → Call → ManagerState → World → StepOut
  | 0, _, s, w => ⟨false, s, w, []⟩
  | fuel + 1, .start m, s, w =>
    match s.process with
    | some _ =>
      let pw := doPoll o w
      match pw.1 with
      | .running => ⟨true, s, pw.2, []⟩
      | .exited _ => run cfg o fuel (.startSpawn m) s pw.2
    | none => run cfg o fuel (.startSpawn m) s w
  | fuel + 1, .startSpawn m, s, w =>
    let model := resolveModel cfg m
    let pid := w.nextPid
    let w := { w with nextPid := w.nextPid + 1 }
    let s := { s with process := some pid, current_model := some model,
                      start_time := some w.clock }
    match startupLoop o 30 s w with
    | .success s' w' evs => ⟨true, s', w', .spawn model :: evs⟩
    | .exhausted s' w' evs => ⟨false, s', w', .spawn model :: evs⟩
    | .crashed s' w' evs =>
      let r := run cfg o fuel .handleCrash s' w'
      ⟨r.ok, r.state, r.world, .spawn model :: (evs ++ r.events)⟩
  | fuel + 1, .handleCrash, s, w =>
    let a := s.restart_attempts + 1
    if 3 < a then
      ⟨false, { s with restart_attempts := 0 }, w, [.crashIncrement, .resetOnExhaust]⟩
    else
      let w := advanceClock (backoff a) w
      let s := { s with restart_attempts := a, process := none }
      let r := run cfg o fuel (.start s.current_model) s w
      ⟨r.ok, r.state, r.world, .crashIncrement :: .backoffSleep (backoff a) :: r.events⟩

/-- `MLXEngineManager.start`. -/
def start (cfg : EngineConfig) (o : Oracle) (fuel : Nat) (model : Option String)
    (s : ManagerState) (w : World) : StepOut :=
  run cfg o fuel (.start model) s w

/-- `MLXEngineManager._handle_crash`. -/
def handleCrash (cfg : EngineConfig) (o : Oracle) (fuel : Nat)
    (s : ManagerState) (w : World) : StepOut :=
  run cfg o fuel .handleCrash s w

/-- `MLXEngineManager.stop` (lines 148-179): clears `_monitoring` first;
returns `true` immediately when no process is held; otherwise sends
SIGTERM to the process group (`ProcessLookupError` swallowed), waits up to
10 seconds, on timeout SIGKILLs (again swallowing `ProcessLookupError`)
and waits; unconditionally clears `process`, `current_model` and
`start_time`, and returns `true`. -/
def stop (o : Oracle) (s : ManagerState) (w : World) : StepOut :=
  let s := { s with monitoring := false }
  match s.process with
  | none => ⟨true, s, w, []⟩
  | some _ =>
    let kw := doKill o w
    let tw := doWait o kw.2
    let w :=
      if tw.1 then
        let kw2 := doKill o tw.2
        kw2.2
      else tw.2
    ⟨true, { s with process := none, current_model := none, start_time := none },
      w, [.termSignal]⟩

/-- `MLXEngineManager.swap_model` (lines 181-187): `stop()`, a 2-second
drain sleep, then `start(new_model)`. -/
def swap_model (cfg : EngineConfig) (o : Oracle) (fuel : Nat) (new_model : String)
    (s : ManagerState) (w : World) : StepOut :=
  let r₁ := stop o s w
  let w := advanceClock 2 r₁.world
  let r₂ := run cfg o fuel (.start (some new_model)) r₁.state w
  ⟨r₂.ok, r₂.state, r₂.world, r₁.events ++ .drainSleep 2 :: r₂.events⟩

/-- The `ServerStatus` pydantic model (lines 53-59). -/
structure ServerStatus where
  status : String
  mlx_server_running : Bool
  current_model : Option String
  uptime_seconds : Nat
  port : Nat
  restart_attempts : Nat
  deriving Repr, DecidableEq

/-- `MLXEngineManager.get_status` (lines 239-251): `running` iff a handle
is held and `poll()` returns `None`; `uptime = time.time() - start_time if
self.start_time else 0` (Python truthiness: a start time of epoch 0 counts
as unset). -/
def get_status (cfg : EngineConfig) (o : Oracle) (s : ManagerState) (w : World) :
    ServerStatus × World :=
  let rw : Bool × World :=
    match s.process with
    | none => (false, w)
    | some _ =>
      let pw := doPoll o w
      (match pw.1 with
       | .running => true
       | .exited _ => false, pw.2)
  let uptime : Nat :=
    match s.start_time with
    | none => 0
    | some t => if t = 0 then 0 else w.clock - t
  (⟨if rw.1 then "running" else "stopped", rw.1, s.current_model, uptime,
    cfg.port, s.restart_attempts⟩, rw.2)

/-- The part of `_handle_crash` that runs before the backoff sleep
(lines 134-142): increments `_restart_attempts`; past the budget it is the
terminal branch (`none`); otherwise yields the backoff duration about to
be slept and the state as it is during the sleep. -/
def handleCrashPhase1 (s : ManagerState) : Option (Nat × ManagerState) :=
  let a := s.restart_attempts + 1
  if 3 < a then none
  else some (backoff a, { s with restart_attempts := a })

/-- The part of `_handle_crash` that runs after the backoff sleep returns
(lines 145-146): clears the handle and re-enters `start` with the
last-known model.  Nothing in it consults `_monitoring`. -/
def handleCrashResume (cfg : EngineConfig) (o : Oracle) (fuel : Nat)
    (s : ManagerState) (w : World) : StepOut :=
  let s := { s with process := none }
  run cfg o fuel (.start s.current_model) s w

/-- The operations through which the supervisor's state evolves: the three
public methods, a direct crash-recovery entry, one iteration of the
`start_monitoring` loop (lines 205-214), the guarded entry of
`start_monitoring` (lines 199-202), and `stop_monitoring` (lines 216-218). -/
inductive Cmd where
  | start (model : Option String)
  | stop
  | swap (model : String)
  | crash
  | monitorIter
  | startMonitoringEnter
  | stopMonitoring
  deriving Repr, DecidableEq

/-- One transition of the supervisor.  `monitorIter` is one pass of the
monitoring loop: exit when the flag is down, else sleep 10s, re-check the
flag, and when a held process polls as exited, clear the handle and run
`_handle_crash` (its boolean is discarded by the loop; we surface it). -/
def execCmd (cfg : EngineConfig) (o : Oracle) (fuel : Nat) :
    Cmd → ManagerState → World → StepOut
  | .start m, s, w => run cfg o fuel (.start m) s w
  | .stop, s, w => stop o s w
  | .swap m, s, w => swap_model cfg o fuel m s w
  | .crash, s, w => run cfg o fuel .handleCrash s w
  | .monitorIter, s, w =>
    if s.monitoring then
      let w := advanceClock 10 w
      if s.monitoring then
        match s.process with
        | none => ⟨true, s, w, []⟩
        | some _ =>
          let pw := doPoll o w
          match pw.1 with
          | .running => ⟨true, s, pw.2, []⟩
          | .exited _ => run cfg o fuel .handleCrash { s with process := none } pw.2
      else ⟨true, s, w, []⟩
    else ⟨true, s, w, []⟩
  | .startMonitoringEnter, s, w =>
    if s.monitoring then ⟨true, s, w, []⟩
    else ⟨true, { s with monitoring := true }, w, []⟩
  | .stopMonitoring, s, w => ⟨true, { s with monitoring := false }, w, []⟩

/-- How a single event acts on `_restart_attempts`: only the increment in
`_handle_crash` and the two resets touch the counter. -/
def attemptStep (a : Nat) : Event → Nat
  | .crashIncrement => a + 1
  | .resetOnExhaust => 0
  | .resetOnSuccess => 0
  | _ => a

/-- Folding an event trace over `_restart_attempts`. -/
def foldAttempts (a : Nat) (evs : List Event) : Nat :=
  evs.foldl attemptStep a

/-- One entry of the configured model directory: its name, whether it is a
directory, and whether it contains a `config.json`. -/
structure DirEntry where
  name : String
  isDir : Bool
  hasConfigJson : Bool
  deriving Repr, DecidableEq

/-- The filesystem as `list_available_models` observes it: whether the
configured model directory exists, and its entries. -/
structure FileSystem where
  modelDirExists : Bool
  entries : List DirEntry
  deriving Repr, DecidableEq

/-- The `GET /models/available` handler `list_available_models`
(lines 335-350): empty list when the directory is absent; otherwise each
subdirectory containing `config.json`, as `(id, path)` with `id` the
folder name and `path` the full path. -/
def list_available_models (cfg : EngineConfig) (fs : FileSystem) :
    List (String × String) :=
  if fs.modelDirExists then
    (fs.entries.filter (fun e => e.isDir && e.hasConfigJson)).map
      (fun e => (e.name, cfg.active_model_directory ++ "/" ++ e.name))
  else []

/-- The model argument each `Call` hands to the spawn path: `start` and its
tail use their argument, `_handle_crash` re-uses the last-known model. -/
def callModel : Call → ManagerState → Option String
  | .start m, _ => m
  | .startSpawn m, _ => m
  | .handleCrash, s => s.current_model

/-- How each `Cmd` leaves the monitoring flag: only entering
`start_monitoring` raises it; `stop`, `swap` (which calls `stop`) and
`stop_monitoring` clear it; everything else leaves it alone. -/
def monitoringAfter : Cmd → Bool → Bool
  | .startMonitoringEnter, _ => true
  | .stop, _ => false
  | .swap _, _ => false
  | .stopMonitoring, _ => false
  | _, b => b

/-! ### Concrete inputs used by witnesses and counterexamples -/

/-- An environment whose engine process stays alive but never answers the
readiness probe. -/
def oracleAliveUnhealthy : Oracle :=
  ⟨fun _ => .running, fun _ => .transportError, fun _ => true, fun _ => false⟩

/-- An environment whose engine process stays alive and answers every
readiness probe with HTTP 200. -/
def oracleHealthy : Oracle :=
  ⟨fun _ => .running, fun _ => .response 200, fun _ => true, fun _ => false⟩

/-- An environment whose engine process is always found exited. -/
def oracleDead : Oracle :=
  ⟨fun _ => .exited 1, fun _ => .transportError, fun _ => true, fun _ => false⟩

/-- A freshly constructed manager: no process, nothing recorded. -/
def freshState : ManagerState := ⟨none, none, none, 0, false⟩

/-- A manager holding a live process for model `"model-a"`. -/
def runningState : ManagerState := ⟨some 5, some "model-a", some 40, 0, true⟩

/-- A manager in crash recovery with the attempt budget already used up. -/
def exhaustedState : ManagerState := ⟨none, some "model-a", some 40, 3, true⟩

/-- A manager mid-crash-recovery, as `_handle_crash` leaves it during its
first backoff sleep (attempt counter already incremented to 1). -/
def backoffPendingState : ManagerState := ⟨none, some "model-a", some 40, 1, true⟩

/-- An initial world: all interaction counters at 0, clock at 100. -/
def world0 : World := ⟨0, 0, 0, 0, 0, 100⟩

/-! ### Characterizations of the startup polling loop -/

lemma startupLoop_success_char (o : Oracle) :
    ∀ n s w s' w' evs, startupLoop o n s w = .success s' w' evs →
      s' = { s with restart_attempts := 0 } ∧ evs = [.resetOnSuccess] ∧
      w.clock ≤ w'.clock ∧ w'.clock + 1 ≤ w.clock + n ∧ w'.nextPid = w.nextPid := by
  intro n
  induction n with
  | zero => intro s w s' w' evs h; simp [startupLoop] at h
  | succ k ih =>
    intro s w s' w' evs h
    simp only [startupLoop] at h
    cases hp : (doPoll o w).1 with
    | exited code => rw [hp] at h; simp at h
    | running =>
      rw [hp] at h
      by_cases hh : (doHealth o (doPoll o w).2).1 = true
      · rw [if_pos hh] at h
        injection h with h1 h2 h3
        refine ⟨h1.symm, h3.symm, ?_, ?_, ?_⟩ <;>
          simp [← h2, doPoll, doHealth]
      · rw [if_neg hh] at h
        have := ih s (advanceClock 1 (doHealth o (doPoll o w).2).2) s' w' evs h
        refine ⟨this.1, this.2.1, ?_, ?_, ?_⟩ <;>
          · have h3 := this.2.2.1
            have h4 := this.2.2.2.1
            have h5 := this.2.2.2.2
            simp [advanceClock, doPoll, doHealth] at h3 h4 h5 ⊢
            omega

lemma startupLoop_exhausted_char (o : Oracle) :
    ∀ n s w s' w' evs, startupLoop o n s w = .exhausted s' w' evs →
      s' = s ∧ evs = [] ∧ w.clock ≤ w'.clock ∧ w'.nextPid = w.nextPid := by
  intro n
  induction n with
  | zero =>
    intro s w s' w' evs h
    simp only [startupLoop] at h
    injection h with h1 h2 h3
    exact ⟨h1.symm, h3.symm, by simp [← h2], by simp [← h2]⟩
  | succ k ih =>
    intro s w s' w' evs h
    simp only [startupLoop] at h
    cases hp : (doPoll o w).1 with
    | exited code => rw [hp] at h; simp at h
    | running =>
      rw [hp] at h
      by_cases hh : (doHealth o (doPoll o w).2).1 = true
      · rw [if_pos hh] at h; simp at h
      · rw [if_neg hh] at h
        have := ih s (advanceClock 1 (doHealth o (doPoll o w).2).2) s' w' evs h
        refine ⟨this.1, this.2.1, ?_, ?_⟩
        · have h3 := this.2.2.1
          simp [advanceClock, doPoll, doHealth] at h3 ⊢
          omega
        · have h4 := this.2.2.2
          simp [advanceClock, doPoll, doHealth] at h4 ⊢
          omega

lemma startupLoop_crashed_char (o : Oracle) :
    ∀ n s w s' w' evs, startupLoop o n s w = .crashed s' w' evs →
      s' = { s with process := none } ∧ evs = [] ∧
      w.clock ≤ w'.clock ∧ w'.nextPid = w.nextPid := by
  intro n
  induction n with
  | zero => intro s w s' w' evs h; simp [startupLoop] at h
  | succ k ih =>
    intro s w s' w' evs h
    simp only [startupLoop] at h
    cases hp : (doPoll o w).1 with
    | exited code =>
      rw [hp] at h
      injection h with h1 h2 h3
      refine ⟨h1.symm, h3.symm, ?_, ?_⟩ <;> simp [← h2, doPoll]
    | running =>
      rw [hp] at h
      by_cases hh : (doHealth o (doPoll o w).2).1 = true
      · rw [if_pos hh] at h; simp at h
      · rw [if_neg hh] at h
        have := ih s (advanceClock 1 (doHealth o (doPoll o w).2).2) s' w' evs h
        refine ⟨this.1, this.2.1, ?_, ?_⟩
        · have h3 := this.2.2.1
          simp [advanceClock, doPoll, doHealth] at h3 ⊢
          omega
        · have h4 := this.2.2.2
          simp [advanceClock, doPoll, doHealth] at h4 ⊢
          omega

/-- Under an environment that reports the process alive but never healthy,
the startup loop runs to exhaustion without touching the manager state. -/
lemma startupLoop_all_unhealthy (o : Oracle)
    (hp : ∀ i, o.poll i = .running)
    (hh : ∀ i, is_healthy (o.health i) = false) :
    ∀ n s w, ∃ w', startupLoop o n s w = .exhausted s w' [] := by
  intro n
  induction n with
  | zero => intro s w; exact ⟨w, rfl⟩
  | succ k ih =>
    intro s w
    obtain ⟨w', hw'⟩ := ih s (advanceClock 1 (doHealth o (doPoll o w).2).2)
    refine ⟨w', ?_⟩
    simp only [startupLoop, doPoll, hp, doHealth, hh]
    simpa [doPoll, doHealth] using hw'

/-! ### Characterizations of the fueled interpreter -/

/-- Neither `start` nor `_handle_crash` ever touches `_monitoring`. -/
lemma run_monitoring (cfg : EngineConfig) (o : Oracle) :
    ∀ fuel c s w, (run cfg o fuel c s w).state.monitoring = s.monitoring := by
  intro fuel
  induction fuel with
  | zero => intro c s w; rfl
  | succ f ih =>
    intro c s w
    cases c with
    | start m =>
      simp only [run]
      cases hsp : s.process with
      | none => exact ih _ _ _
      | some p =>
        cases hpol : (doPoll o w).1
        · exact ih _ _ _
        · rfl
    | startSpawn m =>
      simp only [run]
      cases hlo : startupLoop o 30
          { s with process := some w.nextPid, current_model := some (resolveModel cfg m),
                   start_time := some w.clock } { w with nextPid := w.nextPid + 1 } with
      | success s' w' evs =>
        have := startupLoop_success_char o 30 _ _ _ _ _ hlo
        simp [this.1]
      | exhausted s' w' evs =>
        have := startupLoop_exhausted_char o 30 _ _ _ _ _ hlo
        simp [this.1]
      | crashed s' w' evs =>
        have hc := startupLoop_crashed_char o 30 _ _ _ _ _ hlo
        simp only []
        rw [ih .handleCrash s' w']
        simp [hc.1]
    | handleCrash =>
      simp only [run]
      by_cases h3 : 3 < s.restart_attempts + 1
      · simp [h3]
      · simp only [h3, if_false]
        rw [ih]

/-- `_restart_attempts` after a `start`/`_handle_crash` execution is
exactly the fold of the emitted event trace: only the increment in
`_handle_crash` and the two resets move the counter. -/
lemma run_attempts_fold (cfg : EngineConfig) (o : Oracle) :
    ∀ fuel c s w,
      (run cfg o fuel c s w).state.restart_attempts =
        foldAttempts s.restart_attempts (run cfg o fuel c s w).events := by
  intro fuel
  induction fuel with
  | zero => intro c s w; rfl
  | succ f ih =>
    intro c s w
    cases c with
    | start m =>
      simp only [run]
      cases hsp : s.process with
      | none => exact ih _ _ _
      | some p =>
        cases hpol : (doPoll o w).1
        · exact ih _ _ _
        · rfl
    | startSpawn m =>
      simp only [run]
      cases hlo : startupLoop o 30
          { s with process := some w.nextPid, current_model := some (resolveModel cfg m),
                   start_time := some w.clock } { w with nextPid := w.nextPid + 1 } with
      | success s' w' evs =>
        have hc := startupLoop_success_char o 30 _ _ _ _ _ hlo
        simp [hc.1, hc.2.1, foldAttempts, attemptStep]
      | exhausted s' w' evs =>
        have hc := startupLoop_exhausted_char o 30 _ _ _ _ _ hlo
        simp [hc.1, hc.2.1, foldAttempts, attemptStep]
      | crashed s' w' evs =>
        have hc := startupLoop_crashed_char o 30 _ _ _ _ _ hlo
        have hra : s'.restart_attempts = s.restart_attempts := by rw [hc.1]
        simp [hc.2.1, foldAttempts, attemptStep, ih .handleCrash s' w', hra]
    | handleCrash =>
      simp only [run]
      by_cases h3 : 3 < s.restart_attempts + 1
      · simp [h3, foldAttempts, attemptStep]
      · simp only [h3, if_false]
        rw [ih]
        simp [foldAttempts, attemptStep]

/-- Re-resolving an already-resolved model id is a no-op (the stored
`current_model` re-enters `start` unchanged during crash recovery). -/
lemma resolveModel_idem (cfg : EngineConfig) (m : Option String) :
    resolveModel cfg (some (resolveModel cfg m)) = resolveModel cfg m := by
  cases m with
  | none => simp [resolveModel]
  | some s =>
    by_cases hs : s = "" <;> simp [resolveModel, hs]

/-- A `start`/`_handle_crash` execution that returns `true` ends with
`current_model` holding exactly the resolved requested model (for crash
recovery: the last-known model), and with `start_time` freshly set during
the call — at or after the clock on entry and within 29 seconds of the
clock on return (the startup loop can sleep at most 29 times before the
confirming probe). -/
lemma run_success_char (cfg : EngineConfig) (o : Oracle) :
    ∀ fuel c s w,
      (∀ m, c = Call.start m → s.process = none) →
      (run cfg o fuel c s w).ok = true →
      (run cfg o fuel c s w).state.current_model = some (resolveModel cfg (callModel c s)) ∧
      ∃ t, (run cfg o fuel c s w).state.start_time = some t ∧
        w.clock ≤ t ∧ t ≤ (run cfg o fuel c s w).world.clock ∧
        (run cfg o fuel c s w).world.clock ≤ t + 29 := by
  intro fuel
  induction fuel with
  | zero =>
    intro c s w _ hok
    exact absurd hok (by simp [run])
  | succ f ih =>
    intro c s w hpre hok
    cases c with
    | start m =>
      have hnone : s.process = none := hpre m rfl
      simp only [run, hnone] at hok ⊢
      exact ih (.startSpawn m) s w (by intro m' h; cases h) hok
    | startSpawn m =>
      simp only [run] at hok ⊢
      revert hok
      cases hlo : startupLoop o 30
          { s with process := some w.nextPid, current_model := some (resolveModel cfg m),
                   start_time := some w.clock } { w with nextPid := w.nextPid + 1 } with
      | success s' w' evs =>
        intro hok
        have hc := startupLoop_success_char o 30 _ _ _ _ _ hlo
        refine ⟨?_, w.clock, ?_, le_refl _, ?_, ?_⟩
        · show s'.current_model = some (resolveModel cfg (callModel (.startSpawn m) s))
          simp [hc.1, callModel]
        · show s'.start_time = some w.clock
          simp [hc.1]
        · show w.clock ≤ w'.clock
          have := hc.2.2.1
          simpa using this
        · show w'.clock ≤ w.clock + 29
          have := hc.2.2.2.1
          simp at this
          omega
      | exhausted s' w' evs =>
        intro hok
        simp at hok
      | crashed s' w' evs =>
        intro hok
        have hok' : (run cfg o f .handleCrash s' w').ok = true := hok
        have hc := startupLoop_crashed_char o 30 _ _ _ _ _ hlo
        have hcm : s'.current_model = some (resolveModel cfg m) := by rw [hc.1]
        have hih := ih .handleCrash s' w' (by intro m' h; cases h) hok'
        obtain ⟨t, ht, h1, h2, h3⟩ := hih.2
        refine ⟨?_, t, ?_, ?_, ?_, ?_⟩
        · show (run cfg o f .handleCrash s' w').state.current_model =
            some (resolveModel cfg (callModel (.startSpawn m) s))
          rw [hih.1]
          simp [callModel, hcm, resolveModel_idem]
        · exact ht
        · show w.clock ≤ t
          have hcl := hc.2.2.1
          simp at hcl
          omega
        · exact h2
        · exact h3
    | handleCrash =>
      simp only [run] at hok ⊢
      by_cases h3 : 3 < s.restart_attempts + 1
      · rw [if_pos h3] at hok
        simp at hok
      · rw [if_neg h3] at hok ⊢
        have hok' : (run cfg o f (.start s.current_model)
            { s with restart_attempts := s.restart_attempts + 1, process := none }
            (advanceClock (backoff (s.restart_attempts + 1)) w)).ok = true := hok
        have hih := ih (.start s.current_model)
            { s with restart_attempts := s.restart_attempts + 1, process := none }
            (advanceClock (backoff (s.restart_attempts + 1)) w)
            (by intro m' h; rfl) hok'
        obtain ⟨t, ht, h1, h2, h4⟩ := hih.2
        refine ⟨?_, t, ?_, ?_, ?_, ?_⟩
        · show (run cfg o f (.start s.current_model) _ _).state.current_model =
            some (resolveModel cfg (callModel .handleCrash s))
          rw [hih.1]
          simp [callModel]
        · exact ht
        · show w.clock ≤ t
          simp [advanceClock] at h1
          omega
        · exact h2
        · exact h4


/-- With no held process, a (sufficiently fueled) `start` always reaches
the spawn at line 104: a `spawn` event heads its trace whatever happens
afterwards. -/
lemma run_start_spawns (cfg : EngineConfig) (o : Oracle) (fuel : Nat)
    (m : Option String) (s : ManagerState) (w : World) (h : s.process = none) :
    Event.spawn (resolveModel cfg m) ∈ (run cfg o (fuel + 2) (.start m) s w).events := by
  simp only [run, h]
  cases hlo : startupLoop o 30
      { s with process := some w.nextPid, current_model := some (resolveModel cfg m),
               start_time := some w.clock } { w with nextPid := w.nextPid + 1 } <;>
    simp

/-- `_handle_crash` decomposes at its `await asyncio.sleep(backoff)`
(line 143) into `handleCrashPhase1` (increment and budget check, before
the sleep) and `handleCrashResume` (clear the handle and re-enter `start`,
after the sleep).  This justifies interleaving a concurrent `stop` at the
sleep point. -/
lemma handleCrash_split (cfg : EngineConfig) (o : Oracle) (fuel : Nat)
    (s : ManagerState) (w : World) :
    run cfg o (fuel + 1) .handleCrash s w =
      match handleCrashPhase1 s with
      | none => ⟨false, { s with restart_attempts := 0 }, w,
          [.crashIncrement, .resetOnExhaust]⟩
      | some (b, s₁) =>
        let r := handleCrashResume cfg o fuel s₁ (advanceClock b w)
        ⟨r.ok, r.state, r.world, .crashIncrement :: .backoffSleep b :: r.events⟩ := by
  by_cases h3 : 3 < s.restart_attempts + 1 <;>
    simp [run, handleCrashPhase1, handleCrashResume, h3]

/-- How each supervisor operation leaves the monitoring flag: exactly
`monitoringAfter` — in particular no operation but entering
`start_monitoring` ever raises it. -/
lemma execCmd_monitoring (cfg : EngineConfig) (o : Oracle) (fuel : Nat)
    (c : Cmd) (s : ManagerState) (w : World) :
    (execCmd cfg o fuel c s w).state.monitoring = monitoringAfter c s.monitoring := by
  cases c with
  | start m => exact run_monitoring cfg o fuel _ s w
  | stop =>
    cases hsp : s.process <;> simp [execCmd, stop, hsp, monitoringAfter]
  | swap m =>
    simp only [execCmd, swap_model]
    rw [run_monitoring]
    cases hsp : s.process <;> simp [stop, hsp, monitoringAfter]
  | crash => exact run_monitoring cfg o fuel _ s w
  | monitorIter =>
    by_cases hm : s.monitoring
    · simp only [execCmd, hm, if_true]
      cases hsp : s.process with
      | none => simpa [monitoringAfter] using hm
      | some p =>
        cases hpol : (doPoll o (advanceClock 10 w)).1
        · rw [run_monitoring]
          simp [monitoringAfter, hm]
        · simpa [monitoringAfter] using hm
    · simp [execCmd, hm, monitoringAfter]
  | startMonitoringEnter =>
    by_cases hm : s.monitoring <;> simp [execCmd, hm, monitoringAfter]
  | stopMonitoring => simp [execCmd, monitoringAfter]

/-- `foldAttempts` distributes over trace concatenation. -/
lemma foldAttempts_append (a : Nat) (l₁ l₂ : List Event) :
    foldAttempts a (l₁ ++ l₂) = foldAttempts (foldAttempts a l₁) l₂ := by
  simp [foldAttempts, List.foldl_append]

/-- `_restart_attempts` after any supervisor operation is the fold of the
emitted event trace. -/
lemma execCmd_attempts_fold (cfg : EngineConfig) (o : Oracle) (fuel : Nat)
    (c : Cmd) (s : ManagerState) (w : World) :
    (execCmd cfg o fuel c s w).state.restart_attempts =
      foldAttempts s.restart_attempts (execCmd cfg o fuel c s w).events := by
  cases c with
  | start m => exact run_attempts_fold cfg o fuel _ s w
  | stop =>
    cases hsp : s.process <;> simp [execCmd, stop, hsp, foldAttempts, attemptStep]
  | swap m =>
    simp only [execCmd, swap_model]
    rw [run_attempts_fold, foldAttempts_append]
    cases hsp : s.process <;> simp [stop, hsp, foldAttempts, attemptStep]
  | crash => exact run_attempts_fold cfg o fuel _ s w
  | monitorIter =>
    by_cases hm : s.monitoring
    · simp only [execCmd, hm, if_true]
      cases hsp : s.process with
      | none => simp [foldAttempts]
      | some p =>
        cases hpol : (doPoll o (advanceClock 10 w)).1
        · exact run_attempts_fold cfg o fuel _ _ _
        · simp [foldAttempts]
    · simp [execCmd, hm, foldAttempts]
  | startMonitoringEnter =>
    by_cases hm : s.monitoring <;> simp [execCmd, hm, foldAttempts]
  | stopMonitoring => simp [execCmd, foldAttempts]



/-- The status snapshot reads fields straight off the manager state. -/
lemma get_status_fields (cfg : EngineConfig) (o : Oracle) (s : ManagerState) (w : World) :
    (get_status cfg o s w).1.current_model = s.current_model ∧
    (get_status cfg o s w).1.restart_attempts = s.restart_attempts ∧
    (get_status cfg o s w).1.uptime_seconds =
      (match s.start_time with
       | none => 0
       | some t => if t = 0 then 0 else w.clock - t) := by
  cases hsp : s.process <;> simp [get_status, hsp]

/-! ## Claim theorems -/

/-- C5: for every state in which an engine process already exists and is
alive (`poll()` returns `None`), `start(modelId)` returns success
immediately — the state is unchanged (the same single process handle
remains) and no event is emitted, in particular no second spawn: at most
one supervised engine process exists at any time. -/
theorem start_when_alive_is_noop (cfg : EngineConfig) (o : Oracle) (fuel : Nat)
    (m : Option String) (s : ManagerState) (w : World) (p : Nat)
    (hp : s.process = some p) (halive : o.poll w.pollCtr = .running) :
    start cfg o (fuel + 1) m s w = ⟨true, s, { w with pollCtr := w.pollCtr + 1 }, []⟩ := by
  simp [start, run, hp, doPoll, halive]

/-- Witness for C5 at a concrete running manager. -/
theorem start_when_alive_is_noop_witness :
    start defaultConfig oracleHealthy 1 none runningState world0 =
      ⟨true, runningState, { world0 with pollCtr := world0.pollCtr + 1 }, []⟩ :=
  start_when_alive_is_noop defaultConfig oracleHealthy 0 none runningState world0 5 rfl rfl

/-- C6: `stop()` always returns success, clears the monitoring flag, and
ends with no process handle; when nothing was running it leaves the
remaining fields untouched, otherwise it clears the process handle,
current model and start time unconditionally — for every environment,
including those whose `killpg` reports the process already gone
(`killFinds` false) and those whose graceful wait times out. -/
theorem stop_spec (o : Oracle) (s : ManagerState) (w : World) :
    (stop o s w).ok = true ∧
    (stop o s w).state.monitoring = false ∧
    (stop o s w).state.process = none ∧
    (stop o s w).state.current_model = (if s.process = none then s.current_model else none) ∧
    (stop o s w).state.start_time = (if s.process = none then s.start_time else none) ∧
    (stop o s w).state.restart_attempts = s.restart_attempts := by
  cases hsp : s.process <;> simp [stop, hsp]

/-- C7: the health probe answers `true` only when the readiness call
completed with a success status code (indeed exactly 200); every raised
exception (transport error, timeout) is folded into `false`, and every
non-success status yields `false`. -/
theorem is_healthy_spec (oc : HealthOutcome) (h : is_healthy oc = true) :
    (∃ st, oc = .response st ∧ isSuccessStatus st) ∧
    (∀ oc' e, healthGet oc' = .error e → is_healthy oc' = false) ∧
    (∀ st, ¬ isSuccessStatus st → is_healthy (.response st) = false) := by
  refine ⟨?_, ?_, ?_⟩
  · cases oc with
    | response st =>
      refine ⟨st, rfl, ?_⟩
      have : st = 200 := by simpa [is_healthy, healthGet] using h
      simp [this, isSuccessStatus]
    | transportError => simp [is_healthy, healthGet] at h
    | timeout => simp [is_healthy, healthGet] at h
  · intro oc' e he
    cases oc' <;> simp_all [is_healthy, healthGet]
  · intro st hst
    have h200 : st ≠ 200 := by
      intro hc
      exact hst (by simp [hc, isSuccessStatus])
    simp [is_healthy, healthGet, h200]

/-- Witness for C7 at the one succeeding probe outcome. -/
theorem is_healthy_spec_witness :
    (∃ st, HealthOutcome.response 200 = .response st ∧ isSuccessStatus st) ∧
    (∀ oc' e, healthGet oc' = .error e → is_healthy oc' = false) ∧
    (∀ st, ¬ isSuccessStatus st → is_healthy (.response st) = false) :=
  is_healthy_spec (.response 200) (by decide)

/-- C8: `GET /models/available` returns the empty list whenever the
configured model directory does not exist, and otherwise exactly the
subdirectories containing `config.json`, each as its folder name paired
with its full path. -/
theorem models_available_spec (cfg : EngineConfig) (fs : FileSystem) (nm p : String) :
    list_available_models cfg { fs with modelDirExists := false } = [] ∧
    ((nm, p) ∈ list_available_models cfg fs ↔
      fs.modelDirExists = true ∧ ∃ e ∈ fs.entries, e.isDir = true ∧ e.hasConfigJson = true ∧
        nm = e.name ∧ p = cfg.active_model_directory ++ "/" ++ e.name) := by
  constructor
  · simp [list_available_models]
  · cases hex : fs.modelDirExists with
    | false => simp [list_available_models, hex]
    | true =>
      simp only [list_available_models, hex, if_true, List.mem_map, List.mem_filter,
        Bool.and_eq_true, Prod.mk.injEq, true_and]
      constructor
      · rintro ⟨e, ⟨he, hd, hc⟩, hn, hp⟩
        exact ⟨e, he, hd, hc, hn.symm, hp.symm⟩
      · rintro ⟨e, he, hd, hc, hn, hp⟩
        exact ⟨e, ⟨he, hd, hc⟩, hn.symm, hp.symm⟩



/-- C4: `_handle_crash` increments the attempt counter; if it then exceeds
the budget of 3 it resets the counter to 0 and reports failure without any
further automatic restart (no re-entry into `start`, no spawn); otherwise
it sleeps `backoff (attempts)` = `2 ^ attempts` seconds and re-enters the
same startup path with the last-known model id.  The backoff schedule for
successive attempts is 2s, 4s, 8s — strictly increasing. -/
theorem handle_crash_spec (cfg : EngineConfig) (o : Oracle) (fuel : Nat)
    (s : ManagerState) (w : World) :
    handleCrash cfg o (fuel + 1) s w =
      (if 3 < s.restart_attempts + 1 then
        ⟨false, { s with restart_attempts := 0 }, w, [.crashIncrement, .resetOnExhaust]⟩
      else
        let r := run cfg o fuel (.start s.current_model)
          { s with restart_attempts := s.restart_attempts + 1, process := none }
          (advanceClock (backoff (s.restart_attempts + 1)) w)
        ⟨r.ok, r.state, r.world,
          .crashIncrement :: .backoffSleep (backoff (s.restart_attempts + 1)) :: r.events⟩) ∧
    backoff 1 = 2 ∧ backoff 2 = 4 ∧ backoff 3 = 8 ∧
    backoff 1 < backoff 2 ∧ backoff 2 < backoff 3 := by
  refine ⟨?_, by norm_num [backoff], by norm_num [backoff], by norm_num [backoff],
    by norm_num [backoff], by norm_num [backoff]⟩
  by_cases h3 : 3 < s.restart_attempts + 1 <;> simp [handleCrash, run, h3]

/-- C1 (counterexample): with the engine process alive but never healthy,
`start` exhausts its 30 probes (`healthCtr` ends at 30) and returns
failure, yet the spawned process handle is still held and the process
still polls as running — the supervisor is not left fully stopped. -/
theorem start_exhaustion_counterexample :
    (start defaultConfig oracleAliveUnhealthy 12 (some "model-a") freshState world0).ok
        = false ∧
    (start defaultConfig oracleAliveUnhealthy 12 (some "model-a") freshState
        world0).state.process = some 0 ∧
    (start defaultConfig oracleAliveUnhealthy 12 (some "model-a") freshState
        world0).world.healthCtr = 30 ∧
    oracleAliveUnhealthy.poll
        (start defaultConfig oracleAliveUnhealthy 12 (some "model-a") freshState
          world0).world.pollCtr = .running := by
  decide

/-- C1 (amended): if `start` exhausts its bounded startup polling loop
without a successful health probe, it returns failure but retains the
process handle — the spawned engine process is not torn down, and
`current_model` still names the model it was spawned with. -/
theorem start_exhaustion_keeps_process (cfg : EngineConfig) (o : Oracle) (fuel : Nat)
    (m : Option String) (s : ManagerState) (w : World)
    (hproc : s.process = none)
    (hpoll : ∀ i, o.poll i = .running)
    (hhealth : ∀ i, is_healthy (o.health i) = false) :
    (start cfg o (fuel + 2) m s w).ok = false ∧
    (start cfg o (fuel + 2) m s w).state.process = some w.nextPid ∧
    (start cfg o (fuel + 2) m s w).state.current_model = some (resolveModel cfg m) := by
  obtain ⟨w', hw'⟩ := startupLoop_all_unhealthy o hpoll hhealth 30
    { s with process := some w.nextPid, current_model := some (resolveModel cfg m),
             start_time := some w.clock } { w with nextPid := w.nextPid + 1 }
  simp [start, run, hproc, hw']

/-- Witness for the amended C1 at a concrete alive-but-unhealthy engine. -/
theorem start_exhaustion_keeps_process_witness :
    (start defaultConfig oracleAliveUnhealthy 2 (some "model-a") freshState world0).ok
        = false ∧
    (start defaultConfig oracleAliveUnhealthy 2 (some "model-a") freshState
        world0).state.process = some world0.nextPid ∧
    (start defaultConfig oracleAliveUnhealthy 2 (some "model-a") freshState
        world0).state.current_model
        = some (resolveModel defaultConfig (some "model-a")) :=
  start_exhaustion_keeps_process defaultConfig oracleAliveUnhealthy 0 (some "model-a")
    freshState world0 rfl (fun _ => rfl) (fun _ => rfl)

/-- C2 (counterexample): `backoffPendingState` is exactly the state during
the first backoff sleep (`handleCrashPhase1` from an attempt-0 crash).
Invoking `stop` there succeeds and clears the monitoring flag, yet when
the blind sleep ends, the resumed recovery path (`handleCrashResume`)
still spawns and confirms a new engine process: the pending restart was
not cancelled and a process is running afterward. -/
theorem stop_during_backoff_counterexample :
    handleCrashPhase1 ⟨none, some "model-a", some 40, 0, true⟩
        = some (2, backoffPendingState) ∧
    (stop oracleHealthy backoffPendingState world0).ok = true ∧
    (stop oracleHealthy backoffPendingState world0).state.monitoring = false ∧
    (handleCrashResume defaultConfig oracleHealthy 12
        (stop oracleHealthy backoffPendingState world0).state
        (advanceClock 2 (stop oracleHealthy backoffPendingState world0).world)).ok
        = true ∧
    (handleCrashResume defaultConfig oracleHealthy 12
        (stop oracleHealthy backoffPendingState world0).state
        (advanceClock 2 (stop oracleHealthy backoffPendingState world0).world)).state.process
        = some 0 ∧
    Event.spawn "model-a" ∈
      (handleCrashResume defaultConfig oracleHealthy 12
        (stop oracleHealthy backoffPendingState world0).state
        (advanceClock 2 (stop oracleHealthy backoffPendingState world0).world)).events := by
  decide

/-- C2 (amended): `stop()` invoked while a crash-recovery backoff sleep is
pending does clear the monitoring flag, but does not cancel the pending
restart: the backoff is a blind sleep (`handleCrash_split`), and when it
ends the recovery path unconditionally re-enters `start` with the
last-known model and spawns a new engine process, monitoring flag
notwithstanding. -/
theorem stop_during_backoff_no_cancel (cfg : EngineConfig) (o : Oracle) (fuel : Nat)
    (s : ManagerState) (w wsleep : World) :
    (stop o s w).state.monitoring = false ∧
    Event.spawn (resolveModel cfg ((stop o s w).state.current_model)) ∈
      (handleCrashResume cfg o (fuel + 2) (stop o s w).state wsleep).events := by
  constructor
  · cases hsp : s.process <;> simp [stop, hsp]
  · have h := run_start_spawns cfg o fuel
      ((stop o s w).state.current_model)
      { (stop o s w).state with process := none } wsleep rfl
    simpa [handleCrashResume] using h

/-- C3 (counterexample): a crash with the attempt budget already used up
(`_restart_attempts = 3`) increments past the cap and resets the counter
to 0 while reporting failure — a reset performed by crash recovery itself,
with no confirmed (health-probed) successful start anywhere in the trace. -/
theorem restart_attempts_reset_counterexample :
    exhaustedState.restart_attempts = 3 ∧
    (execCmd defaultConfig oracleDead 12 .crash exhaustedState world0).state.restart_attempts
        = 0 ∧
    (execCmd defaultConfig oracleDead 12 .crash exhaustedState world0).ok = false ∧
    (execCmd defaultConfig oracleDead 12 .crash exhaustedState world0).events
        = [Event.crashIncrement, Event.resetOnExhaust] ∧
    Event.resetOnSuccess ∉
      (execCmd defaultConfig oracleDead 12 .crash exhaustedState world0).events := by
  decide

/-- C3 (amended): across every supervisor operation, `_restart_attempts`
evolves exactly as the fold of the emitted event trace: incremented only
by the crash-recovery increment, reset to 0 only by a confirmed healthy
start (`resetOnSuccess`, emitted at line 125) or by crash recovery itself
exhausting the budget (`resetOnExhaust`, line 138), and never changed by
any other event — in particular a mere process spawn leaves it fixed. -/
theorem restart_attempts_event_discipline (cfg : EngineConfig) (o : Oracle) (fuel : Nat)
    (c : Cmd) (s : ManagerState) (w : World) :
    (execCmd cfg o fuel c s w).state.restart_attempts =
      foldAttempts s.restart_attempts (execCmd cfg o fuel c s w).events ∧
    (∀ a m, attemptStep a (Event.spawn m) = a) ∧
    (∀ a n, attemptStep a (Event.backoffSleep n) = a) ∧
    (∀ a, attemptStep a Event.crashIncrement = a + 1) ∧
    (∀ a, attemptStep a Event.resetOnSuccess = 0) ∧
    (∀ a, attemptStep a Event.resetOnExhaust = 0) :=
  ⟨execCmd_attempts_fold cfg o fuel c s w, fun _ _ => rfl, fun _ _ => rfl,
    fun _ => rfl, fun _ => rfl, fun _ => rfl⟩



/-- C9: `swap_model` is exactly `stop()`, a fixed 2-second drain sleep,
then `start(newModel)`; after a successful swap to model `B` (any
non-empty id), the manager holds model `B` with a start time set freshly
inside the swap (at or after the drain), and an immediately taken status
snapshot reports `current_model = B` with `uptime_seconds` at most 29 —
within the startup bound, near zero for an engine that confirms health
promptly. -/
theorem swap_spec (cfg : EngineConfig) (o : Oracle) (fuel : Nat) (B : String)
    (s : ManagerState) (w : World) (hB : B ≠ "")
    (hok : (swap_model cfg o fuel B s w).ok = true) :
    swap_model cfg o fuel B s w =
      (let r₁ := stop o s w
       let r₂ := run cfg o fuel (.start (some B)) r₁.state (advanceClock 2 r₁.world)
       ⟨r₂.ok, r₂.state, r₂.world, r₁.events ++ .drainSleep 2 :: r₂.events⟩) ∧
    (swap_model cfg o fuel B s w).state.current_model = some B ∧
    (∃ t, (swap_model cfg o fuel B s w).state.start_time = some t ∧
      (stop o s w).world.clock + 2 ≤ t ∧
      (swap_model cfg o fuel B s w).world.clock ≤ t + 29) ∧
    (get_status cfg o (swap_model cfg o fuel B s w).state
        (swap_model cfg o fuel B s w).world).1.current_model = some B ∧
    (get_status cfg o (swap_model cfg o fuel B s w).state
        (swap_model cfg o fuel B s w).world).1.uptime_seconds ≤ 29 := by
  have hpn : (stop o s w).state.process = none := by
    cases hsp : s.process <;> simp [stop, hsp]
  have hok' : (run cfg o fuel (.start (some B)) (stop o s w).state
      (advanceClock 2 (stop o s w).world)).ok = true := hok
  have hchar := run_success_char cfg o fuel (.start (some B)) (stop o s w).state
    (advanceClock 2 (stop o s w).world) (fun _ _ => hpn) hok'
  have hres : resolveModel cfg (some B) = B := by simp [resolveModel, hB]
  obtain ⟨t, ht, h1, h2, h3⟩ := hchar.2
  have hcm : (swap_model cfg o fuel B s w).state.current_model = some B := by
    have h := hchar.1
    rw [show callModel (Call.start (some B)) (stop o s w).state = some B from rfl,
      hres] at h
    exact h
  have hts : (swap_model cfg o fuel B s w).state.start_time = some t := ht
  have hclock : (swap_model cfg o fuel B s w).world.clock ≤ t + 29 := h3
  refine ⟨rfl, hcm, ⟨t, hts, by simpa [advanceClock] using h1, hclock⟩, ?_, ?_⟩
  · rw [(get_status_fields cfg o _ _).1]
    exact hcm
  · rw [(get_status_fields cfg o _ _).2.2, hts]
    by_cases ht0 : t = 0
    · simp [ht0]
    · simp only [ht0, if_false]
      omega

/-- Witness for C9: a concrete hot-swap from `"model-a"` to `"model-b"`
against a promptly healthy engine. -/
theorem swap_spec_witness :
    (swap_model defaultConfig oracleHealthy 3 "model-b" runningState world0).state.current_model
      = some "model-b" :=
  (swap_spec defaultConfig oracleHealthy 3 "model-b" runningState world0
    (by decide) (by decide)).2.1

/-- C10: `stop()` clears the monitoring flag before checking for a
process — even on an already-stopped supervisor it returns success having
cleared the flag and changed nothing else; a monitoring-loop iteration on
a cleared flag exits immediately without touching anything; and across
every supervisor operation the flag evolves by `monitoringAfter`, whose
only flag-raising case is the explicit entry of `start_monitoring`. -/
theorem stop_halts_monitoring (cfg : EngineConfig) (o : Oracle) (fuel : Nat)
    (c : Cmd) (s : ManagerState) (w : World) :
    stop o { s with process := none } w =
      ⟨true, { s with process := none, monitoring := false }, w, []⟩ ∧
    (stop o s w).state.monitoring = false ∧
    execCmd cfg o fuel .monitorIter { s with monitoring := false } w =
      ⟨true, { s with monitoring := false }, w, []⟩ ∧
    (execCmd cfg o fuel c s w).state.monitoring = monitoringAfter c s.monitoring := by
  refine ⟨?_, ?_, ?_, execCmd_monitoring cfg o fuel c s w⟩
  · simp [stop]
  · cases hsp : s.process <;> simp [stop, hsp]
  · simp [execCmd]


end MAI
